import Mathlib

set_option maxHeartbeats 1000000

/- Shallow embedding of scripts/fix-fluent-indent.py.

A line is a list of characters, the Python string of one file line with its
trailing newline already removed, as produced by the reading loop of main.
A document is a list of lines.  All Python string operations used by the
script (lstrip, rstrip, strip, startswith, substring containment, count)
are modelled on lists of characters. -/

abbrev Line := List Char

/-- The ASCII whitespace characters stripped by Python's strip family. -/
def pyIsSpace (c : Char) : Bool :=
  c == ' ' || c == '\t' || c == '\n' || c == '\x0b' || c == '\x0c' || c == '\r'

/-- Python str.lstrip(). -/
def lstrip (l : Line) : Line := l.dropWhile pyIsSpace

/-- Python str.rstrip(). -/
def rstrip (l : Line) : Line := (l.reverse.dropWhile pyIsSpace).reverse

/-- Python str.strip(). -/
def pyStrip (l : Line) : Line := rstrip (lstrip l)

/-- Python str.startswith: the first argument is the pattern. -/
def startsWith : Line → Line → Bool
  | [], _ => true
  | _ :: _, [] => false
  | c :: p, d :: l => c == d && startsWith p l

/-- Python substring containment, `p in l`. -/
def containsSub (p : Line) : Line → Bool
  | [] => startsWith p []
  | c :: l => startsWith p (c :: l) || containsSub p l

/-- A run of n tab characters, `'\t' * n`. -/
def tabs (n : Nat) : Line := List.replicate n '\t'

def sigStr : Line := "func buildRootCommand()".toList

def handlerStr : Line := "Handler(func".toList

def handlerEnd : Line := "\x7d).".toList

def commentStr : Line := "//".toList

def subcommandStr : Line := "Subcommand(".toList

def flagStr : Line := "Flag(".toList

def argStr : Line := "Arg(".toList

def doneStr : Line := "Done().".toList

def closeBraceStr : Line := "\x7d".toList

/-- `should_indent_after` from the script: next line should be indented. -/
def should_indent_after (line : Line) : Bool :=
  startsWith subcommandStr (pyStrip line) || startsWith flagStr (pyStrip line) ||
    startsWith argStr (pyStrip line)

/-- `should_dedent_before` from the script: this line should dedent. -/
def should_dedent_before (line : Line) : Bool :=
  startsWith doneStr (pyStrip line)

/-- `is_handler_line` from the script: part of a Handler function. -/
def is_handler_line (line : Line) : Bool := containsSub handlerStr line

/-- Net open-minus-close brace count of a line. -/
def netBraces (l : Line) : Int :=
  (l.count '\x7b' : Int) - (l.count '\x7d' : Int)

/-- The mutable context threaded through `fix_builder_indentation`'s loop. -/
structure FixState where
  indent_level : Nat
  in_handler : Bool
  handler_indent : Nat
  brace_count : Int

/-- The line emitted for one input line by the loop body of
`fix_builder_indentation`, given the state at that line. -/
def fixEmit (base : Nat) (st : FixState) (line : Line) : Line :=
  if lstrip line = [] then []
  else if startsWith commentStr (lstrip line) then tabs st.indent_level ++ lstrip line
  else if is_handler_line (lstrip line) && !st.in_handler then
    tabs st.indent_level ++ lstrip line
  else if st.in_handler then
    (if lstrip line = handlerEnd then tabs st.indent_level ++ lstrip line
     else rstrip line)
  else if should_dedent_before (lstrip line) then
    tabs (max base (st.indent_level - 1)) ++ lstrip line
  else tabs st.indent_level ++ lstrip line

/-- The state after one input line of `fix_builder_indentation`'s loop. -/
def fixNext (base : Nat) (st : FixState) (line : Line) : FixState :=
  if lstrip line = [] then st
  else if startsWith commentStr (lstrip line) then st
  else if is_handler_line (lstrip line) && !st.in_handler then
    { st with in_handler := true, handler_indent := st.indent_level,
              brace_count := netBraces (lstrip line) }
  else if st.in_handler then
    (if lstrip line = handlerEnd then
      { st with in_handler := false,
                brace_count := st.brace_count + netBraces (lstrip line) }
     else { st with brace_count := st.brace_count + netBraces (lstrip line) })
  else if should_dedent_before (lstrip line) then
    { st with indent_level := max base (st.indent_level - 1) }
  else if should_indent_after (lstrip line) then
    { st with indent_level := st.indent_level + 1 }
  else st

/-- The loop of `fix_builder_indentation`: one emitted line per input line. -/
def fixGo (base : Nat) (st : FixState) : List Line → List Line
  | [] => []
  | l :: rest => fixEmit base st l :: fixGo base (fixNext base st l) rest

/-- `fix_builder_indentation` from the script (base_indent passed explicitly;
the script's default is 2). -/
def fix_builder_indentation (base : Nat) (lines : List Line) : List Line :=
  fixGo base { indent_level := base, in_handler := false,
               handler_indent := 0, brace_count := 0 } lines

/-- `'func buildRootCommand()' in line`. -/
def hasSignature (l : Line) : Bool := containsSub sigStr l

/-- `line.startswith('\x7d') and not '\x7d).' in line`: the line at which
main stops accumulating the function body. -/
def isTerminatorLine (l : Line) : Bool :=
  startsWith closeBraceStr l && !containsSub handlerEnd l

/-- The scanning loop of `main`.  The first flag models `skip_next`, the
second `in_function`, the list accumulator models `func_lines`.  On a
signature line the following line is emitted immediately and then consumed
by the skip flag, exactly as the script appends `lines[i+1]` and sets
`skip_next`.  Accumulated `func_lines` still pending at end of input are
dropped, as in the script. -/
def mainGo : Bool → Bool → List Line → List Line → List Line
  | _, _, _, [] => []
  | skip, inF, funcAcc, l :: rest =>
    if skip then mainGo false inF funcAcc rest
    else if hasSignature l then
      match rest with
      | [] => [l]
      | next :: _ => l :: next :: mainGo true true funcAcc rest
    else if inF then
      if isTerminatorLine l then
        fix_builder_indentation 2 funcAcc ++ l :: mainGo false false [] rest
      else mainGo false true (funcAcc ++ [l]) rest
    else l :: mainGo false false funcAcc rest

/-- The whole-file transform of `main`: document in, rewritten document out. -/
def transform (d : List Line) : List Line := mainGo false false [] d

/-- Modelled from the claim's words (C5): region extraction that tracks
verbatim state while scanning for the suffix boundary.  While inside a
verbatim block no line is a cut line; the block is exited by a line whose
trimmed form equals the verbatim-end token; outside verbatim state the body
ends at the first line starting with a closing brace token.  Returns
(body, remaining lines). -/
def specCut : Bool → List Line → List Line × List Line
  | _, [] => ([], [])
  | inV, l :: rest =>
    if inV then
      let p := specCut (!(pyStrip l = handlerEnd)) rest
      (l :: p.1, p.2)
    else if startsWith closeBraceStr l then ([], l :: rest)
    else
      let p := specCut (is_handler_line l) rest
      (l :: p.1, p.2)

/-- Modelled from the claim's words (C5): split the document at the first
signature-containing line, copy that line and the following line verbatim,
take the body up to the verbatim-aware cut line, re-indent it, and
concatenate (prefix, rewritten body, remaining lines). -/
def specTransform : List Line → List Line
  | [] => []
  | l :: rest =>
    if hasSignature l then
      match rest with
      | [] => [l]
      | next :: rest2 =>
        let p := specCut false rest2
        l :: next :: (fix_builder_indentation 2 p.1 ++ p.2)
    else l :: specTransform rest

/-- The state of the brace-free variant of the indentation machine:
`brace_count` removed, everything else as in `FixState`. -/
structure NBState where
  indent_level : Nat
  in_handler : Bool
  handler_indent : Nat

/-- Projection of the full state onto the brace-free state. -/
def toNB (st : FixState) : NBState :=
  { indent_level := st.indent_level, in_handler := st.in_handler,
    handler_indent := st.handler_indent }

/-- Emitted line of the brace-free variant: identical branch structure to
`fixEmit`, which never consults `brace_count`. -/
def nbEmit (base : Nat) (st : NBState) (line : Line) : Line :=
  if lstrip line = [] then []
  else if startsWith commentStr (lstrip line) then tabs st.indent_level ++ lstrip line
  else if is_handler_line (lstrip line) && !st.in_handler then
    tabs st.indent_level ++ lstrip line
  else if st.in_handler then
    (if lstrip line = handlerEnd then tabs st.indent_level ++ lstrip line
     else rstrip line)
  else if should_dedent_before (lstrip line) then
    tabs (max base (st.indent_level - 1)) ++ lstrip line
  else tabs st.indent_level ++ lstrip line

/-- State update of the brace-free variant: `fixNext` with every
`brace_count` assignment deleted. -/
def nbNext (base : Nat) (st : NBState) (line : Line) : NBState :=
  if lstrip line = [] then st
  else if startsWith commentStr (lstrip line) then st
  else if is_handler_line (lstrip line) && !st.in_handler then
    { st with in_handler := true, handler_indent := st.indent_level }
  else if st.in_handler then
    (if lstrip line = handlerEnd then { st with in_handler := false } else st)
  else if should_dedent_before (lstrip line) then
    { st with indent_level := max base (st.indent_level - 1) }
  else if should_indent_after (lstrip line) then
    { st with indent_level := st.indent_level + 1 }
  else st

def nbGo (base : Nat) (st : NBState) : List Line → List Line
  | [] => []
  | l :: rest => nbEmit base st l :: nbGo base (nbNext base st l) rest

/-- The brace-free re-indenter. -/
def fix_builder_indentation_nobrace (base : Nat) (lines : List Line) : List Line :=
  nbGo base { indent_level := base, in_handler := false, handler_indent := 0 } lines

/-- `main`'s scan, with the brace-free re-indenter substituted. -/
def mainGoNB : Bool → Bool → List Line → List Line → List Line
  | _, _, _, [] => []
  | skip, inF, funcAcc, l :: rest =>
    if skip then mainGoNB false inF funcAcc rest
    else if hasSignature l then
      match rest with
      | [] => [l]
      | next :: _ => l :: next :: mainGoNB true true funcAcc rest
    else if inF then
      if isTerminatorLine l then
        fix_builder_indentation_nobrace 2 funcAcc ++ l :: mainGoNB false false [] rest
      else mainGoNB false true (funcAcc ++ [l]) rest
    else l :: mainGoNB false false funcAcc rest

/-- The whole-file transform built on the brace-free machine. -/
def transform_nobrace (d : List Line) : List Line := mainGoNB false false [] d

/-- What the machine emits for a line while inside a verbatim block that the
current line does not close: blank lines become empty, comment lines are
re-indented to the (frozen) current level, everything else is the original
line with trailing whitespace removed. -/
def verbEmit (level : Nat) (line : Line) : Line :=
  if lstrip line = [] then []
  else if startsWith commentStr (lstrip line) then tabs level ++ lstrip line
  else rstrip line

/-- Splitting a line into its maximal runs of non-whitespace characters;
`cur` holds the (reversed) run being read. -/
def tokensGo : Line → Line → List Line
  | cur, [] => if cur = [] then [] else [cur.reverse]
  | cur, c :: rest =>
    if pyIsSpace c then
      (if cur = [] then tokensGo [] rest else cur.reverse :: tokensGo [] rest)
    else tokensGo (c :: cur) rest

/-- The whitespace-separated tokens of a line. -/
def tokens (l : Line) : List Line := tokensGo [] l

def subLine : Line := "Subcommand(".toList

def flagLine : Line := "Flag(".toList

def doneLine : Line := "Done().".toList

/-- A document whose Handler block contains a tab-indented comment line. -/
def C1doc : List Line :=
  ["func buildRootCommand() \x7b".toList, "return rootCmd".toList,
   "Handler(func(ctx) \x7b".toList, "\t// boom".toList,
   "\x7d).".toList, "\x7d".toList]

/-- A document whose Handler block contains a verbatim-end line carrying a
trailing space. -/
def C2doc : List Line :=
  ["func buildRootCommand() \x7b".toList, "return rootCmd".toList,
   "Handler(func(ctx) \x7b".toList, "\x7d). ".toList, "A(".toList,
   "\x7d).".toList, "\x7d".toList]

/-- A document with the signature but no closing-brace line after it. -/
def C3doc : List Line :=
  ["func buildRootCommand() \x7b".toList, "return rootCmd".toList, "A(".toList]

/-- A document whose Handler block contains a bare closing-brace line. -/
def C5doc : List Line :=
  ["func buildRootCommand() \x7b".toList, "return rootCmd".toList,
   "Handler(func(ctx) \x7b".toList, "\x7d".toList, "\x7d).".toList,
   "\x7d".toList]

/-- A region body that opens a Handler block, never closes it, and contains
a tab-indented comment line. -/
def C6body : List Line :=
  ["Handler(func(ctx) \x7b".toList, "\t// boom".toList]

/-- A region body that opens a Handler block followed by an unindented
interior line. -/
def C7body : List Line :=
  ["Handler(func(ctx) \x7b".toList, "x".toList]

/-- A document with an unterminated region that contains a second
signature-bearing line. -/
def C9doc : List Line :=
  ["func buildRootCommand() \x7b".toList, "return rootCmd".toList, "A(".toList,
   "x := func buildRootCommand() \x7b".toList, "B".toList]

theorem startsWith_self_append (p r : Line) : startsWith p (p ++ r) = true := by
  induction p with
  | nil => rfl
  | cons c p ih => simp [startsWith, ih]

theorem startsWith_tabs_append (base lvl : Nat) (s : Line) (h : base ≤ lvl) :
    startsWith (tabs base) (tabs lvl ++ s) = true := by
  have hb : tabs lvl = tabs base ++ tabs (lvl - base) := by
    rw [tabs, tabs, tabs, ← List.replicate_add, Nat.add_sub_cancel' h]
  rw [hb, List.append_assoc]
  exact startsWith_self_append _ _

theorem tokens_cons_space (c : Char) (l : Line) (h : pyIsSpace c = true) :
    tokens (c :: l) = tokens l := by
  simp [tokens, tokensGo, h]

theorem tokens_lstrip (l : Line) : tokens (lstrip l) = tokens l := by
  induction l with
  | nil => rfl
  | cons c l ih =>
    by_cases h : pyIsSpace c = true
    · rw [lstrip, List.dropWhile_cons_of_pos h]
      rw [← lstrip, ih, tokens_cons_space c l h]
    · rw [lstrip, List.dropWhile_cons_of_neg (by simp [h])]

theorem tokens_tabs_append (n : Nat) (l : Line) : tokens (tabs n ++ l) = tokens l := by
  induction n with
  | zero => rfl
  | succ m ih =>
    rw [tabs, List.replicate_succ, List.cons_append,
      tokens_cons_space _ _ (by decide)]
    exact ih

theorem tokensGo_allspace : ∀ (sp : Line), (∀ c ∈ sp, pyIsSpace c = true) →
    ∀ cur, tokensGo cur sp = if cur = [] then [] else [cur.reverse]
  | [], _, cur => rfl
  | c :: sp, hsp, cur => by
    have hc : pyIsSpace c = true := hsp c (List.mem_cons_self c sp)
    have ih := tokensGo_allspace sp (fun d hd => hsp d (List.mem_cons_of_mem c hd))
    by_cases hcur : cur = []
    · simp [tokensGo, hc, hcur, ih]
    · simp [tokensGo, hc, hcur, ih]

theorem tokensGo_append_space : ∀ (m sp : Line), (∀ c ∈ sp, pyIsSpace c = true) →
    ∀ cur, tokensGo cur (m ++ sp) = tokensGo cur m
  | [], sp, hsp, cur => by
    rw [List.nil_append, tokensGo_allspace sp hsp cur]
    rfl
  | c :: m, sp, hsp, cur => by
    by_cases hc : pyIsSpace c = true
    · by_cases hcur : cur = []
      · simp [tokensGo, hc, hcur, tokensGo_append_space m sp hsp]
      · simp [tokensGo, hc, hcur, tokensGo_append_space m sp hsp]
    · simp [tokensGo, hc, tokensGo_append_space m sp hsp]

theorem rstrip_append_eq (l : Line) :
    rstrip l ++ (List.takeWhile pyIsSpace l.reverse).reverse = l := by
  rw [rstrip, ← List.reverse_append, List.takeWhile_append_dropWhile,
    List.reverse_reverse]

theorem tokens_rstrip (l : Line) : tokens (rstrip l) = tokens l := by
  have hsp : ∀ c ∈ (List.takeWhile pyIsSpace l.reverse).reverse, pyIsSpace c = true := by
    intro c hc
    rw [List.mem_reverse] at hc
    simpa using List.mem_takeWhile_imp hc
  conv_rhs => rw [← rstrip_append_eq l]
  rw [tokens, tokens, tokensGo_append_space (rstrip l) _ hsp]

theorem tokens_of_lstrip_nil (l : Line) (h : lstrip l = []) : tokens l = [] := by
  rw [← tokens_lstrip, h]
  rfl

theorem fixEmit_tokens (base : Nat) (st : FixState) (l : Line) :
    tokens (fixEmit base st l) = tokens l := by
  unfold fixEmit
  split_ifs with h1 h2 h3 h4 h5 h6
  · exact (tokens_of_lstrip_nil l h1).symm
  · rw [tokens_tabs_append, tokens_lstrip]
  · rw [tokens_tabs_append, tokens_lstrip]
  · rw [tokens_tabs_append, tokens_lstrip]
  · exact tokens_rstrip l
  · rw [tokens_tabs_append, tokens_lstrip]
  · rw [tokens_tabs_append, tokens_lstrip]

theorem fixGo_map_tokens (base : Nat) : ∀ (b : List Line) (st : FixState),
    (fixGo base st b).map tokens = b.map tokens
  | [], _ => rfl
  | l :: rest, st => by
    rw [fixGo, List.map_cons, List.map_cons, fixEmit_tokens,
      fixGo_map_tokens base rest (fixNext base st l)]

theorem fix_map_tokens (base : Nat) (b : List Line) :
    (fix_builder_indentation base b).map tokens = b.map tokens :=
  fixGo_map_tokens base b _

theorem mainGo_nosig : ∀ (p acc rest : List Line),
    (∀ l ∈ p, hasSignature l = false) →
    mainGo false false acc (p ++ rest) = p ++ mainGo false false acc rest
  | [], _, _, _ => rfl
  | l :: p, acc, rest, h => by
    have hl : hasSignature l = false := h l (List.mem_cons_self l p)
    have hp : ∀ x ∈ p, hasSignature x = false :=
      fun x hx => h x (List.mem_cons_of_mem l hx)
    rw [List.cons_append]
    simp only [mainGo, hl]
    simp only [Bool.false_eq_true, if_false]
    rw [mainGo_nosig p acc rest hp, List.cons_append]

theorem mainGo_sig (s n : Line) (acc r : List Line) (hs : hasSignature s = true) :
    mainGo false false acc (s :: n :: r) = s :: n :: mainGo false true acc r := by
  simp [mainGo, hs]

theorem mainGo_body : ∀ (b acc : List Line) (t : Line) (suf : List Line),
    (∀ l ∈ b, hasSignature l = false ∧ isTerminatorLine l = false) →
    hasSignature t = false → isTerminatorLine t = true →
    mainGo false true acc (b ++ t :: suf) =
      fix_builder_indentation 2 (acc ++ b) ++ t :: mainGo false false [] suf
  | [], acc, t, suf, _, hts, ht => by
    simp [mainGo, hts, ht]
  | l :: b, acc, t, suf, hb, hts, ht => by
    have h1 : hasSignature l = false := (hb l (List.mem_cons_self l b)).1
    have h2 : isTerminatorLine l = false := (hb l (List.mem_cons_self l b)).2
    have hb' : ∀ x ∈ b, hasSignature x = false ∧ isTerminatorLine x = false :=
      fun x hx => hb x (List.mem_cons_of_mem l hx)
    rw [List.cons_append]
    simp only [mainGo, h1, h2, Bool.false_eq_true, if_false]
    rw [mainGo_body b (acc ++ [l]) t suf hb' hts ht, List.append_assoc,
      List.singleton_append]
    rw [if_pos trivial]

theorem mainGo_drop : ∀ (b acc : List Line),
    (∀ l ∈ b, hasSignature l = false ∧ isTerminatorLine l = false) →
    mainGo false true acc b = []
  | [], _, _ => rfl
  | l :: b, acc, hb => by
    have h1 : hasSignature l = false := (hb l (List.mem_cons_self l b)).1
    have h2 : isTerminatorLine l = false := (hb l (List.mem_cons_self l b)).2
    have hb' : ∀ x ∈ b, hasSignature x = false ∧ isTerminatorLine x = false :=
      fun x hx => hb x (List.mem_cons_of_mem l hx)
    simp only [mainGo, h1, h2, Bool.false_eq_true, if_false]
    exact mainGo_drop b (acc ++ [l]) hb'

theorem transform_split (p : List Line) (s n : Line) (b : List Line) (t : Line)
    (suf : List Line)
    (hp : ∀ l ∈ p, hasSignature l = false) (hs : hasSignature s = true)
    (hb : ∀ l ∈ b, hasSignature l = false ∧ isTerminatorLine l = false)
    (hts : hasSignature t = false) (ht : isTerminatorLine t = true)
    (hsuf : ∀ l ∈ suf, hasSignature l = false) :
    transform (p ++ s :: n :: (b ++ t :: suf)) =
      p ++ s :: n :: (fix_builder_indentation 2 b ++ t :: suf) := by
  rw [transform, mainGo_nosig p [] _ hp, mainGo_sig s n [] _ hs,
    mainGo_body b [] t suf hb hts ht]
  have h4 : mainGo false false ([] : List Line) suf = suf := by
    have h5 := mainGo_nosig suf [] [] hsuf
    simpa [mainGo] using h5
  rw [h4, List.nil_append]

theorem fixNext_indent (base : Nat) (st : FixState) (l : Line)
    (h : base ≤ st.indent_level) : base ≤ (fixNext base st l).indent_level := by
  unfold fixNext
  split_ifs <;> simp_all
  omega

theorem fixNext_handler (base : Nat) (st : FixState) (l : Line)
    (hh : st.in_handler = true) (hend : lstrip l ≠ handlerEnd) :
    (fixNext base st l).in_handler = true ∧
      (fixNext base st l).indent_level = st.indent_level := by
  unfold fixNext
  split_ifs <;> simp_all

theorem fixEmit_verb (base : Nat) (st : FixState) (l : Line)
    (hh : st.in_handler = true) (hend : lstrip l ≠ handlerEnd) :
    fixEmit base st l = verbEmit st.indent_level l := by
  unfold fixEmit verbEmit
  split_ifs <;> simp_all

theorem fixGo_verbatim (base : Nat) : ∀ (b : List Line) (st : FixState),
    st.in_handler = true → (∀ l ∈ b, lstrip l ≠ handlerEnd) →
    fixGo base st b = b.map (verbEmit st.indent_level)
  | [], _, _, _ => rfl
  | l :: rest, st, hh, hend => by
    have hl : lstrip l ≠ handlerEnd := hend l (List.mem_cons_self l rest)
    have hrest : ∀ x ∈ rest, lstrip x ≠ handlerEnd :=
      fun x hx => hend x (List.mem_cons_of_mem l hx)
    have hn := fixNext_handler base st l hh hl
    rw [fixGo, List.map_cons, fixEmit_verb base st l hh hl,
      fixGo_verbatim base rest (fixNext base st l) hn.1 hrest, hn.2]

theorem fixEmit_cases (base : Nat) (st : FixState) (l : Line)
    (h : base ≤ st.indent_level) :
    fixEmit base st l = [] ∨ fixEmit base st l = rstrip l ∨
      startsWith (tabs base) (fixEmit base st l) = true := by
  unfold fixEmit
  split_ifs
  · exact Or.inl rfl
  · exact Or.inr (Or.inr (startsWith_tabs_append base st.indent_level _ h))
  · exact Or.inr (Or.inr (startsWith_tabs_append base st.indent_level _ h))
  · exact Or.inr (Or.inr (startsWith_tabs_append base st.indent_level _ h))
  · exact Or.inr (Or.inl rfl)
  · exact Or.inr (Or.inr (startsWith_tabs_append base _ _ (Nat.le_max_left _ _)))
  · exact Or.inr (Or.inr (startsWith_tabs_append base st.indent_level _ h))

theorem fixGo_floor (base : Nat) : ∀ (b : List Line) (st : FixState),
    base ≤ st.indent_level → ∀ e ∈ fixGo base st b,
      e = [] ∨ (∃ l ∈ b, e = rstrip l) ∨ startsWith (tabs base) e = true
  | [], _, _, _, he => absurd he (List.not_mem_nil _)
  | l :: rest, st, h, e, he => by
    rw [fixGo] at he
    rcases List.mem_cons.mp he with h1 | h2
    · subst h1
      rcases fixEmit_cases base st l h with hc | hc | hc
      · exact Or.inl hc
      · exact Or.inr (Or.inl ⟨l, List.mem_cons_self l rest, hc⟩)
      · exact Or.inr (Or.inr hc)
    · rcases fixGo_floor base rest (fixNext base st l)
        (fixNext_indent base st l h) e h2 with hc | ⟨x, hx, hex⟩ | hc
      · exact Or.inl hc
      · exact Or.inr (Or.inl ⟨x, List.mem_cons_of_mem l hx, hex⟩)
      · exact Or.inr (Or.inr hc)

theorem nbEmit_eq (base : Nat) (st : FixState) (l : Line) :
    nbEmit base (toNB st) l = fixEmit base st l := rfl

theorem nbNext_eq (base : Nat) (st : FixState) (l : Line) :
    nbNext base (toNB st) l = toNB (fixNext base st l) := by
  obtain ⟨il, ih, hi, bc⟩ := st
  unfold nbNext fixNext toNB
  split_ifs <;> rfl

theorem nbGo_eq (base : Nat) : ∀ (b : List Line) (st : FixState),
    nbGo base (toNB st) b = fixGo base st b
  | [], _ => rfl
  | l :: rest, st => by
    rw [nbGo, fixGo, nbEmit_eq, nbNext_eq, nbGo_eq base rest (fixNext base st l)]

theorem fix_nobrace_eq (base : Nat) (b : List Line) :
    fix_builder_indentation_nobrace base b = fix_builder_indentation base b := by
  rw [fix_builder_indentation_nobrace, fix_builder_indentation]
  exact nbGo_eq base b
    { indent_level := base, in_handler := false, handler_indent := 0, brace_count := 0 }

theorem mainGoNB_eq : ∀ (d : List Line) (skip inF : Bool) (acc : List Line),
    mainGoNB skip inF acc d = mainGo skip inF acc d
  | [], _, _, _ => rfl
  | l :: rest, skip, inF, acc => by
    simp only [mainGoNB, mainGo, fix_nobrace_eq,
      mainGoNB_eq rest false inF acc, mainGoNB_eq rest true true acc,
      mainGoNB_eq rest false false [], mainGoNB_eq rest false true (acc ++ [l]),
      mainGoNB_eq rest false false acc]

theorem fixEmit_sub (base : Nat) (st : FixState) (h : st.in_handler = false) :
    fixEmit base st subLine = tabs st.indent_level ++ subLine := by
  unfold fixEmit
  rw [if_neg (by decide), if_neg (by decide), if_neg (by rw [h]; decide),
    if_neg (by simp [h]), if_neg (by decide)]
  rfl

theorem fixNext_sub (base : Nat) (st : FixState) (h : st.in_handler = false) :
    fixNext base st subLine = { st with indent_level := st.indent_level + 1 } := by
  unfold fixNext
  rw [if_neg (by decide), if_neg (by decide), if_neg (by rw [h]; decide),
    if_neg (by simp [h]), if_neg (by decide), if_pos (by decide)]

theorem fixEmit_flag (base : Nat) (st : FixState) (h : st.in_handler = false) :
    fixEmit base st flagLine = tabs st.indent_level ++ flagLine := by
  unfold fixEmit
  rw [if_neg (by decide), if_neg (by decide), if_neg (by rw [h]; decide),
    if_neg (by simp [h]), if_neg (by decide)]
  rfl

theorem fixNext_flag (base : Nat) (st : FixState) (h : st.in_handler = false) :
    fixNext base st flagLine = { st with indent_level := st.indent_level + 1 } := by
  unfold fixNext
  rw [if_neg (by decide), if_neg (by decide), if_neg (by rw [h]; decide),
    if_neg (by simp [h]), if_neg (by decide), if_pos (by decide)]

theorem fixEmit_done (base : Nat) (st : FixState) (h : st.in_handler = false) :
    fixEmit base st doneLine = tabs (max base (st.indent_level - 1)) ++ doneLine := by
  unfold fixEmit
  rw [if_neg (by decide), if_neg (by decide), if_neg (by rw [h]; decide),
    if_neg (by simp [h]), if_pos (by decide)]
  rfl

theorem fixNext_done (base : Nat) (st : FixState) (h : st.in_handler = false) :
    fixNext base st doneLine =
      { st with indent_level := max base (st.indent_level - 1) } := by
  unfold fixNext
  rw [if_neg (by decide), if_neg (by decide), if_neg (by rw [h]; decide),
    if_neg (by simp [h]), if_pos (by decide)]

/-- C1 (amended): inside a Handler block, a line that is non-blank, not
comment-prefixed after left-stripping, and not the verbatim-end token is
emitted as the original line with trailing whitespace removed — so it is
byte-identical exactly when it carries no trailing whitespace.  Blank lines
are emitted empty and comment lines are re-indented. -/
theorem C1_verbatim_rstrip (base : Nat) (st : FixState) (line : Line)
    (hh : st.in_handler = true) (hne : lstrip line ≠ [])
    (hnc : startsWith commentStr (lstrip line) = false)
    (hend : lstrip line ≠ handlerEnd) :
    fixEmit base st line = rstrip line := by
  unfold fixEmit
  split_ifs <;> simp_all

/-- Witness for C1_verbatim_rstrip at a concrete handler-interior line. -/
theorem C1_verbatim_rstrip_witness :
    lstrip ("  x := 1  ".toList) ≠ [] ∧
      fixEmit 2 ⟨2, true, 2, 1⟩ ("  x := 1  ".toList) =
        rstrip ("  x := 1  ".toList) :=
  ⟨by decide,
    C1_verbatim_rstrip 2 ⟨2, true, 2, 1⟩
      ("  x := 1  ".toList) rfl (by decide) (by decide) (by decide)⟩

/-- C1 counterexample: in C1doc the tab-indented comment line sits strictly
between the Handler start line and the verbatim-end line, yet the transform
emits it re-indented, not byte-identical to the input. -/
theorem C1_counterexample :
    is_handler_line ((C1doc[2]?).getD []) = true ∧
      pyStrip ((C1doc[4]?).getD []) = handlerEnd ∧
      (transform C1doc)[3]? = some ("\t\t// boom".toList) ∧
      (transform C1doc)[3]? ≠ C1doc[3]? := by
  decide

/-- C2: the whole-file transform is not idempotent.  In C2doc the Handler
block contains a verbatim-end line with a trailing space; the first pass
emits it right-stripped while still treating it as verbatim interior, and
the second pass then classifies the stripped line as the verbatim end and
re-indents the following lines. -/
theorem C2_not_idempotent :
    (transform C2doc)[4]? = some ("A(".toList) ∧
      (transform (transform C2doc))[4]? = some ("\t\tA(".toList) ∧
      transform (transform C2doc) ≠ transform C2doc := by
  decide

/-- C3 (amended): token preservation holds whenever the document splits as
prefix, signature line, copied header line, terminator-free and
signature-free body, terminator line, and signature-free suffix; the
line-by-line token sequence of the output equals that of the input. -/
theorem C3_token_preservation (p : List Line) (s n : Line) (b : List Line)
    (t : Line) (suf : List Line)
    (hp : ∀ l ∈ p, hasSignature l = false) (hs : hasSignature s = true)
    (hb : ∀ l ∈ b, hasSignature l = false ∧ isTerminatorLine l = false)
    (hts : hasSignature t = false) (ht : isTerminatorLine t = true)
    (hsuf : ∀ l ∈ suf, hasSignature l = false) :
    (transform (p ++ s :: n :: (b ++ t :: suf))).map tokens =
      (p ++ s :: n :: (b ++ t :: suf)).map tokens := by
  rw [transform_split p s n b t suf hp hs hb hts ht hsuf]
  simp [fix_map_tokens]

/-- Witness for C3_token_preservation on a concrete well-formed document. -/
theorem C3_token_preservation_witness :
    hasSignature ("func buildRootCommand() \x7b".toList) = true ∧
      (transform ([] ++ ("func buildRootCommand() \x7b".toList) ::
          ("return rootCmd".toList) ::
          (["\tFlag( ".toList] ++ ("\x7d".toList) :: ["package trailer".toList]))).map
          tokens =
        (([] : List Line) ++ ("func buildRootCommand() \x7b".toList) ::
          ("return rootCmd".toList) ::
          (["\tFlag( ".toList] ++ ("\x7d".toList) :: ["package trailer".toList])).map
          tokens :=
  ⟨by decide,
    C3_token_preservation [] ("func buildRootCommand() \x7b".toList)
      ("return rootCmd".toList) ["\tFlag( ".toList] ("\x7d".toList)
      ["package trailer".toList] (by decide) (by decide) (by decide) (by decide)
      (by decide) (by decide)⟩

/-- C3 counterexample: C3doc contains the signature but no terminator line,
so the body lines are dropped and the token sequence is not preserved. -/
theorem C3_counterexample :
    (transform C3doc).map tokens ≠ C3doc.map tokens := by
  decide

/-- C4: if no line of the document contains the target signature, the
transform is the identity. -/
theorem C4_identity_fallback (d : List Line)
    (h : ∀ l ∈ d, hasSignature l = false) : transform d = d := by
  have h2 := mainGo_nosig d [] [] h
  simpa [transform, mainGo] using h2

/-- Witness for C4_identity_fallback on a signature-free document. -/
theorem C4_identity_fallback_witness :
    (∀ l ∈ [("package main".toList : Line), "x".toList], hasSignature l = false) ∧
      transform [("package main".toList : Line), "x".toList] =
        [("package main".toList : Line), "x".toList] :=
  ⟨by decide, C4_identity_fallback _ (by decide)⟩

/-- C5 (amended): the suffix boundary is purely lexical — the body runs up
to the first later line that starts with a closing brace and nowhere
contains the verbatim-end token, with no regard to verbatim state — and for
a document with a unique signature line and such a terminator, the output
is prefix, re-indented body, then the untouched remainder. -/
theorem C5_region_split (p : List Line) (s n : Line) (b : List Line) (t : Line)
    (suf : List Line)
    (hp : ∀ l ∈ p, hasSignature l = false) (hs : hasSignature s = true)
    (hb : ∀ l ∈ b, hasSignature l = false ∧ isTerminatorLine l = false)
    (hts : hasSignature t = false) (ht : isTerminatorLine t = true)
    (hsuf : ∀ l ∈ suf, hasSignature l = false) :
    transform (p ++ s :: n :: (b ++ t :: suf)) =
      p ++ s :: n :: (fix_builder_indentation 2 b ++ t :: suf) :=
  transform_split p s n b t suf hp hs hb hts ht hsuf

/-- Witness for C5_region_split on a concrete well-formed document. -/
theorem C5_region_split_witness :
    isTerminatorLine ("\x7d".toList) = true ∧
      transform (["package main".toList] ++
          ("func buildRootCommand() \x7b".toList) :: ("return rootCmd".toList) ::
          (["Subcommand(".toList] ++ ("\x7d".toList) :: [])) =
        ["package main".toList] ++
          ("func buildRootCommand() \x7b".toList) :: ("return rootCmd".toList) ::
          (fix_builder_indentation 2 ["Subcommand(".toList] ++
            ("\x7d".toList) :: []) :=
  ⟨by decide,
    C5_region_split ["package main".toList]
      ("func buildRootCommand() \x7b".toList) ("return rootCmd".toList)
      ["Subcommand(".toList] ("\x7d".toList) [] (by decide) (by decide)
      (by decide) (by decide) (by decide) (by decide)⟩

/-- C5 counterexample: in C5doc a bare closing-brace line lies inside an
open Handler block; the claim's verbatim-aware boundary keeps it in the
body, but the code cuts the region there, so the two disagree. -/
theorem C5_counterexample :
    (specTransform C5doc)[4]? = some ("\t\t\x7d).".toList) ∧
      (transform C5doc)[4]? = some ("\x7d).".toList) ∧
      specTransform C5doc ≠ transform C5doc := by
  decide

/-- C6 (amended): the machine is total and loses no line — if a Handler
block is open and never closed in the remaining lines, it emits exactly one
line per input line, namely the line right-stripped for non-blank
non-comment lines, empty for blank lines, and re-indented for comment
lines. -/
theorem C6_fail_open (base : Nat) (st : FixState) (b : List Line)
    (hh : st.in_handler = true) (hend : ∀ l ∈ b, lstrip l ≠ handlerEnd) :
    fixGo base st b = b.map (verbEmit st.indent_level) :=
  fixGo_verbatim base b st hh hend

/-- Witness for C6_fail_open on a concrete unterminated handler body. -/
theorem C6_fail_open_witness :
    (∀ l ∈ [("return nil".toList : Line), "".toList], lstrip l ≠ handlerEnd) ∧
      fixGo 2 ⟨3, true, 3, 1⟩ [("return nil".toList : Line), "".toList] =
        [("return nil".toList : Line), "".toList].map (verbEmit 3) :=
  ⟨by decide,
    C6_fail_open 2 ⟨3, true, 3, 1⟩
      [("return nil".toList : Line), "".toList] rfl (by decide)⟩

/-- C6 counterexample: in C6body the Handler block is opened and never
closed, yet the comment line after it is emitted re-indented, not
unchanged. -/
theorem C6_counterexample :
    is_handler_line ((C6body[0]?).getD []) = true ∧
      (∀ l ∈ C6body, lstrip l ≠ handlerEnd) ∧
      (fix_builder_indentation 2 C6body)[1]? = some ("\t\t// boom".toList) ∧
      (fix_builder_indentation 2 C6body)[1]? ≠ C6body[1]? := by
  decide

/-- C7 (amended): indent_level never drops below base_indent, and every
emitted line is empty, or a verbatim-interior line (an input line
right-stripped), or carries at least base_indent leading tabs. -/
theorem C7_indent_floor (base : Nat) (st : FixState) (b : List Line)
    (h : base ≤ st.indent_level) :
    (∀ l, base ≤ (fixNext base st l).indent_level) ∧
      ∀ e ∈ fixGo base st b,
        e = [] ∨ (∃ l ∈ b, e = rstrip l) ∨ startsWith (tabs base) e = true :=
  ⟨fun l => fixNext_indent base st l h, fixGo_floor base b st h⟩

/-- Witness for C7_indent_floor at the machine's initial state. -/
theorem C7_indent_floor_witness :
    2 ≤ (2 : Nat) ∧
      ((∀ l, 2 ≤ (fixNext 2 ⟨2, false, 0, 0⟩ l).indent_level) ∧
        ∀ e ∈ fixGo 2 ⟨2, false, 0, 0⟩ [subLine],
          e = [] ∨ (∃ l ∈ [subLine], e = rstrip l) ∨
            startsWith (tabs 2) e = true) :=
  ⟨by decide,
    C7_indent_floor 2 ⟨2, false, 0, 0⟩ [subLine] (by decide)⟩

/-- C7 counterexample: the machine emits the handler-interior line of
C7body with no leading indentation at all, below the base_indent floor. -/
theorem C7_counterexample :
    (fix_builder_indentation 2 C7body)[1]? = some ("x".toList) ∧
      ("x".toList : Line) ≠ [] ∧
      startsWith (tabs 2) ("x".toList) = false := by
  decide

/-- C8: on the body Subcommand( / Flag( / Done(). / Done(). the machine
emits the lines at levels base, base+1, base+1 and base: increases take
effect after the triggering line, dedents before the triggering line. -/
theorem C8_scenario_a (base : Nat) :
    fix_builder_indentation base [subLine, flagLine, doneLine, doneLine] =
      [tabs base ++ subLine, tabs (base + 1) ++ flagLine,
       tabs (base + 1) ++ doneLine, tabs base ++ doneLine] := by
  have m1 : max base (base + 1 + 1 - 1) = base + 1 := by omega
  have m2 : max base (base + 1 - 1) = base := by omega
  simp only [fix_builder_indentation, fixGo, fixEmit_sub, fixNext_sub,
    fixEmit_flag, fixNext_flag, fixEmit_done, fixNext_done]
  simp [m1, m2]

/-- C9 (amended): when the document has a signature line, no terminator
line after the two-line prefix, and also no further signature line there,
the output is the prefix alone and the accumulated lines are dropped. -/
theorem C9_drop_region (p : List Line) (s n : Line) (b : List Line)
    (hp : ∀ l ∈ p, hasSignature l = false) (hs : hasSignature s = true)
    (hb : ∀ l ∈ b, hasSignature l = false ∧ isTerminatorLine l = false) :
    transform (p ++ s :: n :: b) = p ++ [s, n] := by
  rw [transform, mainGo_nosig p [] _ hp, mainGo_sig s n [] _ hs,
    mainGo_drop b [] hb]

/-- Witness for C9_drop_region on a concrete unterminated document. -/
theorem C9_drop_region_witness :
    hasSignature ("func buildRootCommand() \x7b".toList) = true ∧
      transform ([] ++ ("func buildRootCommand() \x7b".toList) ::
          ("return rootCmd".toList) :: ["A(".toList]) =
        [] ++ [("func buildRootCommand() \x7b".toList : Line),
          "return rootCmd".toList] :=
  ⟨by decide,
    C9_drop_region [] ("func buildRootCommand() \x7b".toList)
      ("return rootCmd".toList) ["A(".toList] (by decide) (by decide)
      (by decide)⟩

/-- C9 counterexample: C9doc has a second signature-bearing line inside the
unterminated region; that line and its successor are still written, so the
output is not the prefix alone. -/
theorem C9_counterexample :
    hasSignature ((C9doc[0]?).getD []) = true ∧
      (∀ l ∈ C9doc, isTerminatorLine l = false) ∧
      transform C9doc =
        [("func buildRootCommand() \x7b".toList : Line),
          "return rootCmd".toList, "x := func buildRootCommand() \x7b".toList,
          "B".toList] ∧
      transform C9doc ≠ C9doc.take 2 := by
  decide

/-- C10: brace counting never influences the output — the transform equals
the variant of the machine with all brace counting removed, on every
document. -/
theorem C10_brace_irrelevant : ∀ d : List Line, transform_nobrace d = transform d :=
  fun d => mainGoNB_eq d false false []
